import Mathlib

/-!
Shallow embedding of `src/server.js` (graphql-bookshop): an in-memory
bookshop API over two mutable lists, `authors` and `books`.  The GraphQL
framework, HTTP transport and schema boilerplate are out of scope; the
resolver bodies are translated one-to-one.  JavaScript mutation of the two
module-level lists is modelled by explicit state passing: every operation
takes a `Store` and returns its result paired with the post-operation
`Store`.  A resolver that throws (the `book.name = args.name` dereference of
`undefined` in `updateBook`/`updateAuthor`) is modelled by `Except.error ()`,
returned together with the store as it stood when the throw happened (no
write precedes the throw in the source).
-/

namespace Bookshop

/-- Author record: `{ id, name }` in `server.js`. -/
structure Author where
  id : Int
  name : String
deriving DecidableEq

/-- Book record: `{ id, name, authorId }` in `server.js`. -/
structure Book where
  id : Int
  name : String
  authorId : Int
deriving DecidableEq

/-- The two module-level mutable lists `authors` and `books`. -/
structure Store where
  authors : List Author
  books : List Book
deriving DecidableEq

/-- The seeded `authors` list (lines 15-19 of `server.js`). -/
def seedAuthors : List Author :=
  [⟨1, "J. K. Rowling"⟩, ⟨2, "J. R. R. Tolkien"⟩, ⟨3, "Brent Weeks"⟩]

/-- The seeded `books` list (lines 22-31 of `server.js`). -/
def seedBooks : List Book :=
  [⟨1, "Harry Porter and the Chamber of Secrets", 1⟩,
   ⟨2, "Harry Porter and the Prisoner of Azkaban", 1⟩,
   ⟨3, "Harry Porter and the Goblet of Fire", 1⟩,
   ⟨4, "The Fellowship of the Ring", 2⟩,
   ⟨5, "The Two Towers", 2⟩,
   ⟨6, "The Return of the King", 2⟩,
   ⟨7, "The Way of Shadows", 3⟩,
   ⟨8, "Beyond the Shadows", 3⟩]

/-- The startup state of the process. -/
def seedStore : Store := ⟨seedAuthors, seedBooks⟩

/-- `BookType.author.resolve`: `authors.find((author) => author.id === book.authorId)`. -/
def resolveAuthor (book : Book) (s : Store) : Option Author :=
  s.authors.find? fun author => author.id == book.authorId

/-- `AuthorType.books.resolve`: `books.filter((book) => book.authorId === author.id)`. -/
def resolveBooks (author : Author) (s : Store) : List Book :=
  s.books.filter fun book => book.authorId == author.id

/-- `RootQueryType.book.resolve`: `books.find((book) => book.id === args.id)`.
The `id` argument is optional in the schema; an omitted argument is
`undefined` in JavaScript and `book.id === undefined` is false for every
book, modelled by `i = none`. -/
def bookQuery (i : Option Int) (s : Store) : Option Book × Store :=
  (s.books.find? fun book => i == some book.id, s)

/-- `RootQueryType.books.resolve`: `() => books`. -/
def booksQuery (s : Store) : List Book × Store :=
  (s.books, s)

/-- `RootQueryType.author.resolve`: `authors.find((author) => author.id === args.id)`. -/
def authorQuery (i : Option Int) (s : Store) : Option Author × Store :=
  (s.authors.find? fun author => i == some author.id, s)

/-- `RootQueryType.authors.resolve`: `() => authors`. -/
def authorsQuery (s : Store) : List Author × Store :=
  (s.authors, s)

/-- `addBook.resolve`: builds `{ id: books.length + 1, name, authorId }`,
pushes it and returns it. -/
def addBook (nm : String) (aid : Int) (s : Store) : Book × Store :=
  let book : Book := ⟨(s.books.length : Int) + 1, nm, aid⟩
  (book, ⟨s.authors, s.books ++ [book]⟩)

/-- Replacement of the first element satisfying `p` by `x`; this models the
JavaScript in-place mutation of the object returned by `Array.find`, which
occupies the position of the first match. -/
def setFirst {α : Type} (p : α → Bool) (x : α) : List α → List α
  | [] => []
  | y :: ys => if p y then x :: ys else y :: setFirst p x ys

/-- `updateBook.resolve`: `books.find((book) => book.id === args.id)` followed
by `book.name = args.name; book.authorId = args.authorId; return book`.  When
`find` yields `undefined` the field assignment throws a TypeError before any
write, modelled by `Except.error ()` paired with the untouched store. -/
def updateBook (id : Int) (nm : String) (aid : Int) (s : Store) :
    Except Unit Book × Store :=
  match s.books.find? (fun book => book.id == id) with
  | none => (Except.error (), s)
  | some book =>
    let updated : Book := ⟨book.id, nm, aid⟩
    (Except.ok updated, ⟨s.authors, setFirst (fun b => b.id == id) updated s.books⟩)

/-- `deleteBook.resolve`: finds the book; if present, reassigns
`books = books.filter((book) => book.id !== args.id)`; returns `books`. -/
def deleteBook (id : Int) (s : Store) : List Book × Store :=
  match s.books.find? (fun book => book.id == id) with
  | none => (s.books, s)
  | some _ =>
    let remaining := s.books.filter fun book => !(book.id == id)
    (remaining, ⟨s.authors, remaining⟩)

/-- `addAuthor.resolve`: builds `{ id: authors.length + 1, name }`, pushes it
and returns it. -/
def addAuthor (nm : String) (s : Store) : Author × Store :=
  let author : Author := ⟨(s.authors.length : Int) + 1, nm⟩
  (author, ⟨s.authors ++ [author], s.books⟩)

/-- `updateAuthor.resolve`: `authors.find((author) => author.id === args.id)`
followed by `author.name = args.name; return author`; same TypeError on a
missing id as `updateBook`. -/
def updateAuthor (id : Int) (nm : String) (s : Store) :
    Except Unit Author × Store :=
  match s.authors.find? (fun author => author.id == id) with
  | none => (Except.error (), s)
  | some author =>
    let updated : Author := ⟨author.id, nm⟩
    (Except.ok updated, ⟨setFirst (fun a => a.id == id) updated s.authors, s.books⟩)

/-- `deleteAuthor.resolve`: finds the author; if present, reassigns
`authors = authors.filter((author) => author.id !== args.id)`; returns
`authors`. -/
def deleteAuthor (id : Int) (s : Store) : List Author × Store :=
  match s.authors.find? (fun author => author.id == id) with
  | none => (s.authors, s)
  | some _ =>
    let remaining := s.authors.filter fun author => !(author.id == id)
    (remaining, ⟨remaining, s.books⟩)

/-- Replacing the first match inside an explicit decomposition: when no
element of `l1` satisfies `p` and `b` does, `setFirst` rewrites exactly the
position of `b`. -/
theorem setFirst_append {α : Type} (p : α → Bool) (x b : α) (l1 l2 : List α)
    (h1 : ∀ y ∈ l1, p y = false) (hb : p b = true) :
    setFirst p x (l1 ++ b :: l2) = l1 ++ x :: l2 := by
  induction l1 with
  | nil => simp [setFirst, hb]
  | cons y ys ih =>
    have hy := h1 y (by simp)
    simp [setFirst, hy, ih (fun z hz => h1 z (by simp [hz]))]

/-- C1: resolving a Book's author field scans `authors` and returns the first
Author whose id equals the book's authorId, absent when none matches;
resolving an Author's books field returns exactly the Books whose authorId
equals the author's id, in collection order (a sublist of `books`, with
membership and multiplicity characterised exactly), and the empty sequence
when there are none. -/
theorem resolver_cross_reference_spec (b : Book) (a : Author) (s : Store) :
    (resolveAuthor b s = none ↔ ∀ x ∈ s.authors, x.id ≠ b.authorId)
    ∧ (∀ x : Author, resolveAuthor b s = some x ↔
        x.id = b.authorId ∧ ∃ l1 l2, s.authors = l1 ++ x :: l2 ∧ ∀ y ∈ l1, y.id ≠ b.authorId)
    ∧ (resolveBooks a s).Sublist s.books
    ∧ (∀ x : Book, x ∈ resolveBooks a s ↔ x ∈ s.books ∧ x.authorId = a.id)
    ∧ (∀ x : Book, (resolveBooks a s).count x =
        if x.authorId = a.id then s.books.count x else 0)
    ∧ (resolveBooks a s = [] ↔ ∀ x ∈ s.books, x.authorId ≠ a.id) := by
  refine ⟨?_, ?_, ?_, ?_, ?_, ?_⟩
  · simp [resolveAuthor, List.find?_eq_none]
  · intro x
    unfold resolveAuthor
    rw [List.find?_eq_some]
    simp [and_comm]
  · exact List.filter_sublist _
  · intro x; simp [resolveBooks]
  · intro x
    by_cases hx : x.authorId = a.id
    · simp [resolveBooks, hx]
    · rw [if_neg hx]
      exact List.count_eq_zero.mpr (by simp [resolveBooks, hx])
  · simp [resolveBooks, List.filter_eq_nil_iff]

/-- C2: in the startup state, `authors()` returns exactly the 3 seeded Author
records in order, and `books()` returns exactly the 8 seeded Book records
with ids 1 through 8 and authorIds 1,1,1,2,2,2,3,3 in order. -/
theorem seed_state_query_results :
    (authorsQuery seedStore).1 =
      [⟨1, "J. K. Rowling"⟩, ⟨2, "J. R. R. Tolkien"⟩, ⟨3, "Brent Weeks"⟩]
    ∧ (booksQuery seedStore).1.length = 8
    ∧ (booksQuery seedStore).1.map Book.id = [1, 2, 3, 4, 5, 6, 7, 8]
    ∧ (booksQuery seedStore).1.map Book.authorId = [1, 1, 1, 2, 2, 2, 3, 3]
    ∧ (booksQuery seedStore).1 = seedBooks :=
  ⟨rfl, rfl, rfl, rfl, rfl⟩

/-- C5: `addBook` appends a Book whose id is the current length of `books`
plus one and returns exactly that Book; `addAuthor` does the same over
`authors`; both succeed for every `authorId`, existing Author or not, since
nothing is validated. -/
theorem add_assigns_length_plus_one (s : Store) (nm : String) (aid : Int) :
    (addBook nm aid s).1 = ⟨(s.books.length : Int) + 1, nm, aid⟩
    ∧ (addBook nm aid s).2 = ⟨s.authors, s.books ++ [(addBook nm aid s).1]⟩
    ∧ (addAuthor nm s).1 = ⟨(s.authors.length : Int) + 1, nm⟩
    ∧ (addAuthor nm s).2 = ⟨s.authors ++ [(addAuthor nm s).1], s.books⟩ :=
  ⟨rfl, rfl, rfl, rfl⟩

/-- C8: the four query operations leave the store exactly unchanged; a
single-entity lookup whose id matches nothing yields an absent result rather
than a fault, and `book` with the id argument omitted matches nothing. -/
theorem queries_read_only (s : Store) (i : Option Int) (v : Int) :
    (bookQuery i s).2 = s ∧ (booksQuery s).2 = s
    ∧ (authorQuery i s).2 = s ∧ (authorsQuery s).2 = s
    ∧ ((bookQuery (some v) s).1 = none ↔ ∀ b ∈ s.books, b.id ≠ v)
    ∧ ((authorQuery (some v) s).1 = none ↔ ∀ a ∈ s.authors, a.id ≠ v)
    ∧ (bookQuery none s).1 = none
    ∧ (authorQuery none s).1 = none := by
  refine ⟨rfl, rfl, rfl, rfl, ?_, ?_, ?_, ?_⟩
  · simp [bookQuery, List.find?_eq_none, ne_comm]
  · simp [authorQuery, List.find?_eq_none, ne_comm]
  · simp [bookQuery, List.find?_eq_none]
  · simp [authorQuery, List.find?_eq_none]

/-- C3: for every state and every id with no matching record, `updateBook`
and `updateAuthor` abort with the modelled null-dereference fault
(`Except.error`, not an absent result), and the store is returned exactly
as it was — no record is mutated by the faulting operation. -/
theorem update_missing_id_faults (s : Store) (id : Int) (nm anm : String) (aid : Int)
    (hb : ∀ b ∈ s.books, b.id ≠ id) (ha : ∀ a ∈ s.authors, a.id ≠ id) :
    updateBook id nm aid s = (Except.error (), s)
    ∧ updateAuthor id anm s = (Except.error (), s) := by
  have h1 : s.books.find? (fun book => book.id == id) = none :=
    List.find?_eq_none.mpr (by simpa using hb)
  have h2 : s.authors.find? (fun author => author.id == id) = none :=
    List.find?_eq_none.mpr (by simpa using ha)
  constructor
  · unfold updateBook; rw [h1]
  · unfold updateAuthor; rw [h2]

/-- Closed instance of `update_missing_id_faults`: id 999 matches nothing in
the seed state, both updates fault and return the seed store untouched. -/
theorem update_missing_id_faults_witness :
    (∀ b ∈ seedStore.books, b.id ≠ (999 : Int))
    ∧ (∀ a ∈ seedStore.authors, a.id ≠ (999 : Int))
    ∧ updateBook 999 "X" 2 seedStore = (Except.error (), seedStore)
    ∧ updateAuthor 999 "Ghost" seedStore = (Except.error (), seedStore) :=
  ⟨by decide, by decide,
   (update_missing_id_faults seedStore 999 "X" "Ghost" 2 (by decide) (by decide)).1,
   (update_missing_id_faults seedStore 999 "X" "Ghost" 2 (by decide) (by decide)).2⟩

/-- C4: `deleteBook` removes the matching Book when present and is a silent
no-op when absent; in both cases its result is the full post-deletion books
sequence, a sublist of the original (original relative order) keeping exactly
the entries whose id differs; from the seed state, deleting id 1 returns the
remaining 7 books in order. -/
theorem deleteBook_removes_matches (s : Store) (id : Int) :
    (deleteBook id s).1 = (deleteBook id s).2.books
    ∧ (deleteBook id s).2.authors = s.authors
    ∧ ((deleteBook id s).2.books).Sublist s.books
    ∧ (∀ b : Book, b ∈ (deleteBook id s).2.books ↔ b ∈ s.books ∧ b.id ≠ id)
    ∧ (∀ b : Book, (deleteBook id s).2.books.count b =
        if b.id = id then 0 else s.books.count b)
    ∧ ((∀ b ∈ s.books, b.id ≠ id) → deleteBook id s = (s.books, s))
    ∧ (deleteBook 1 seedStore).1.map Book.id = [2, 3, 4, 5, 6, 7, 8] := by
  have hbooks : (deleteBook id s).2.books = s.books.filter (fun b => !(b.id == id)) := by
    unfold deleteBook
    split
    · rename_i h
      have hn := List.find?_eq_none.mp h
      symm
      exact List.filter_eq_self.mpr (fun x hx => by simpa using hn x hx)
    · rfl
  have hfst : (deleteBook id s).1 = (deleteBook id s).2.books := by
    unfold deleteBook; split <;> rfl
  have hauth : (deleteBook id s).2.authors = s.authors := by
    unfold deleteBook; split <;> rfl
  refine ⟨hfst, hauth, ?_, ?_, ?_, ?_, by decide⟩
  · rw [hbooks]; exact List.filter_sublist _
  · intro b; rw [hbooks]; simp
  · intro b
    rw [hbooks]
    by_cases hb : b.id = id
    · rw [if_pos hb]
      exact List.count_eq_zero.mpr (by simp [hb])
    · rw [if_neg hb]
      exact List.count_filter (by simpa using hb)
  · intro h
    unfold deleteBook
    rw [List.find?_eq_none.mpr (by simpa using h)]

/-- Closed instance of `deleteBook_removes_matches`: deleting the absent id
999 from the seed state is a silent no-op returning the untouched books. -/
theorem deleteBook_removes_matches_witness :
    (∀ b ∈ seedStore.books, b.id ≠ (999 : Int))
    ∧ deleteBook 999 seedStore = (seedStore.books, seedStore) :=
  ⟨by decide, (deleteBook_removes_matches seedStore 999).2.2.2.2.2.1 (by decide)⟩

/-- C7: when a Book with the given id exists, `updateBook` mutates only that
record in place — the books list decomposes as a prefix with no match, the
found record, and a suffix, and only the found position changes; concretely,
`updateBook(1, "X", 2)` on the seed state rewrites exactly the first record
and leaves every other book and all authors unchanged. -/
theorem updateBook_mutates_in_place (s : Store) (id : Int) (nm : String) (aid : Int)
    (bk : Book) (h : s.books.find? (fun x => x.id == id) = some bk) :
    (updateBook 1 "X" 2 seedStore).1 = Except.ok ⟨1, "X", 2⟩
    ∧ (updateBook 1 "X" 2 seedStore).2 = ⟨seedAuthors, ⟨1, "X", 2⟩ :: seedBooks.tail⟩
    ∧ (updateBook id nm aid s).1 = Except.ok ⟨bk.id, nm, aid⟩
    ∧ (updateBook id nm aid s).2.authors = s.authors
    ∧ ∃ l1 l2, s.books = l1 ++ bk :: l2 ∧ (∀ y ∈ l1, y.id ≠ id)
        ∧ (updateBook id nm aid s).2.books = l1 ++ ⟨bk.id, nm, aid⟩ :: l2 := by
  obtain ⟨hp, l1, l2, hdec, hl1⟩ := List.find?_eq_some.mp h
  refine ⟨rfl, rfl, ?_, ?_, l1, l2, hdec, ?_, ?_⟩
  · unfold updateBook; rw [h]
  · unfold updateBook; rw [h]
  · intro y hy; simpa using hl1 y hy
  · unfold updateBook; rw [h]
    show setFirst _ _ s.books = _
    rw [hdec]
    exact setFirst_append _ _ bk l1 l2 (fun y hy => by simpa using hl1 y hy) hp

/-- Closed instance of `updateBook_mutates_in_place` at the seed state with
id 1, hypothesis discharged by evaluation. -/
theorem updateBook_mutates_in_place_witness :
    seedStore.books.find? (fun x => x.id == (1 : Int)) =
      some ⟨1, "Harry Porter and the Chamber of Secrets", 1⟩
    ∧ (updateBook 1 "X" 2 seedStore).1 = Except.ok ⟨1, "X", 2⟩
    ∧ (updateBook 1 "X" 2 seedStore).2 = ⟨seedAuthors, ⟨1, "X", 2⟩ :: seedBooks.tail⟩ :=
  ⟨by decide,
   (updateBook_mutates_in_place seedStore 1 "X" 2
     ⟨1, "Harry Porter and the Chamber of Secrets", 1⟩ (by decide)).1,
   (updateBook_mutates_in_place seedStore 1 "X" 2
     ⟨1, "Harry Porter and the Chamber of Secrets", 1⟩ (by decide)).2.1⟩

/-- C9: `deleteAuthor` never touches the books collection — every Book,
including any that referenced the deleted author's id, stays with its
authorId unchanged (no cascading delete) — and resolving such an orphaned
Book's author field afterwards returns not-found. -/
theorem deleteAuthor_no_cascade (s : Store) (id : Int) (bk : Book)
    (hb : bk.authorId = id) :
    (deleteAuthor id s).2.books = s.books
    ∧ resolveAuthor bk (deleteAuthor id s).2 = none := by
  have hbooks : (deleteAuthor id s).2.books = s.books := by
    unfold deleteAuthor; split <;> rfl
  refine ⟨hbooks, ?_⟩
  unfold resolveAuthor deleteAuthor
  split
  · rename_i h
    rw [hb]
    exact h
  · show List.find? _ (List.filter _ s.authors) = none
    rw [hb]
    refine List.find?_eq_none.mpr (fun x hx => ?_)
    have := (List.mem_filter.mp hx).2
    simpa using this

/-- Closed instance of `deleteAuthor_no_cascade`: deleting author 3 from the
seed state keeps book 7 (authorId 3) intact and its author resolves to
nothing. -/
theorem deleteAuthor_no_cascade_witness :
    (deleteAuthor 3 seedStore).2.books = seedStore.books
    ∧ resolveAuthor ⟨7, "The Way of Shadows", 3⟩ (deleteAuthor 3 seedStore).2 = none :=
  ⟨(deleteAuthor_no_cascade seedStore 3 ⟨7, "The Way of Shadows", 3⟩ rfl).1,
   (deleteAuthor_no_cascade seedStore 3 ⟨7, "The Way of Shadows", 3⟩ rfl).2⟩

/-- The store after `addBook("New Book", 1)` from the seed state. -/
def cycleStep1 : Store := (addBook "New Book" 1 seedStore).2

/-- The id assigned by that `addBook` call. -/
def cycleNewId : Int := (addBook "New Book" 1 seedStore).1.id

/-- The store after then deleting that same newly assigned id. -/
def cycleStep2 : Store := (deleteBook cycleNewId cycleStep1).2

/-- The Book created by a second `addBook` after the deletion. -/
def cycleAdded : Book := (addBook "Another Book" 1 cycleStep2).1

/-- The store after that second `addBook`. -/
def cycleStep3 : Store := (addBook "Another Book" 1 cycleStep2).2

/-- C6 counterexample: running addBook, then deleteBook on that same newly
assigned id (9), then addBook again from the seed state assigns id 9 to the
second book as well, but by then no stored book bears id 9, so the final
store has pairwise-distinct book ids — the claimed sequence produces no
duplicate. -/
theorem add_delete_add_same_id_no_duplicate :
    cycleNewId = 9
    ∧ cycleAdded.id = 9
    ∧ cycleAdded.id ∉ cycleStep2.books.map Book.id
    ∧ (cycleStep3.books.map Book.id).Nodup := by decide

/-- The store after `addBook("New Book", 1)` from the seed state, for the
duplicate-producing variant. -/
def dupStep1 : Store := (addBook "New Book" 1 seedStore).2

/-- The store after then deleting the pre-existing id 1 (not the new id 9). -/
def dupStep2 : Store := (deleteBook 1 dupStep1).2

/-- The Book created by a second `addBook` after that deletion. -/
def dupAdded : Book := (addBook "Another Book" 1 dupStep2).1

/-- The store after that second `addBook`, which holds two books with id 9. -/
def dupStore : Store := (addBook "Another Book" 1 dupStep2).2

/-- C6 (amended): calling addBook, then deleteBook on an id other than the
newly assigned one (id 1 from the seed), then addBook again produces a Book
whose id (9) duplicates the id of a book already in the store — the
id-collision defect of length+1 assignment reproduces under this
add/delete/add sequence. -/
theorem add_delete_add_duplicate_id :
    dupAdded.id = 9
    ∧ dupAdded.id ∈ dupStep2.books.map Book.id
    ∧ ¬ (dupStore.books.map Book.id).Nodup
    ∧ dupStore.books.map Book.id = [2, 3, 4, 5, 6, 7, 8, 9, 9] := by decide

/-- C10: in a state whose books list decomposes as a clean prefix, a first
book bearing the id, and a suffix containing another book with the same id,
`deleteBook` removes every book bearing that id in a single call, whereas
`updateBook` rewrites only the first such book and leaves the later
duplicate in place unchanged. -/
theorem duplicate_id_delete_all_update_first (s : Store) (id : Int) (nm : String)
    (aid : Int) (l1 l2 : List Book) (bk c : Book)
    (hs : s.books = l1 ++ bk :: l2) (hbid : bk.id = id) (hl1 : ∀ y ∈ l1, y.id ≠ id)
    (hc : c ∈ l2) (hcid : c.id = id) :
    (∀ x ∈ (deleteBook id s).2.books, x.id ≠ id)
    ∧ (updateBook id nm aid s).2.books = l1 ++ ⟨bk.id, nm, aid⟩ :: l2
    ∧ c ∈ (updateBook id nm aid s).2.books
    ∧ c ∉ (deleteBook id s).2.books := by
  have hfind : s.books.find? (fun book => book.id == id) = some bk := by
    rw [List.find?_eq_some]
    exact ⟨by simp [hbid], l1, l2, hs, fun y hy => by simpa using hl1 y hy⟩
  have hupd : (updateBook id nm aid s).2.books = l1 ++ ⟨bk.id, nm, aid⟩ :: l2 := by
    unfold updateBook; rw [hfind]
    show setFirst _ _ s.books = _
    rw [hs]
    exact setFirst_append _ _ bk l1 l2 (fun y hy => by simpa using hl1 y hy) (by simp [hbid])
  have hdel : (deleteBook id s).2.books = s.books.filter (fun b => !(b.id == id)) := by
    unfold deleteBook; rw [hfind]
  refine ⟨?_, hupd, ?_, ?_⟩
  · intro x hx
    rw [hdel] at hx
    exact by simpa using (List.mem_filter.mp hx).2
  · rw [hupd]; simp [hc]
  · rw [hdel]; simp [hcid]

/-- Closed instance of `duplicate_id_delete_all_update_first` on the
reachable duplicate-id store `dupStore` (two books with id 9): the later
duplicate survives `updateBook` untouched and is removed by `deleteBook`. -/
theorem duplicate_id_delete_all_update_first_witness :
    (⟨9, "Another Book", 1⟩ : Book) ∈ (updateBook 9 "Z" 2 dupStore).2.books
    ∧ (⟨9, "Another Book", 1⟩ : Book) ∉ (deleteBook 9 dupStore).2.books :=
  ⟨(duplicate_id_delete_all_update_first dupStore 9 "Z" 2
      [⟨2, "Harry Porter and the Prisoner of Azkaban", 1⟩,
       ⟨3, "Harry Porter and the Goblet of Fire", 1⟩,
       ⟨4, "The Fellowship of the Ring", 2⟩,
       ⟨5, "The Two Towers", 2⟩,
       ⟨6, "The Return of the King", 2⟩,
       ⟨7, "The Way of Shadows", 3⟩,
       ⟨8, "Beyond the Shadows", 3⟩]
      [⟨9, "Another Book", 1⟩] ⟨9, "New Book", 1⟩ ⟨9, "Another Book", 1⟩
      (by decide) (by decide) (by decide) (by decide) (by decide)).2.2.1,
   (duplicate_id_delete_all_update_first dupStore 9 "Z" 2
      [⟨2, "Harry Porter and the Prisoner of Azkaban", 1⟩,
       ⟨3, "Harry Porter and the Goblet of Fire", 1⟩,
       ⟨4, "The Fellowship of the Ring", 2⟩,
       ⟨5, "The Two Towers", 2⟩,
       ⟨6, "The Return of the King", 2⟩,
       ⟨7, "The Way of Shadows", 3⟩,
       ⟨8, "Beyond the Shadows", 3⟩]
      [⟨9, "Another Book", 1⟩] ⟨9, "New Book", 1⟩ ⟨9, "Another Book", 1⟩
      (by decide) (by decide) (by decide) (by decide) (by decide)).2.2.2⟩

end Bookshop
